import Mathlib

/-!
Verification of the nyx astrodynamics toolkit's Gauss-Markov noise process,
Kalman-filter error contract, and adaptive-step controller, against a shallow
embedding of the Rust sources.

Modelling conventions:
* f64 values are modelled as `ℚ` (exact arithmetic standing in for IEEE-754).
* hifitime `Duration` and `Epoch` are modelled as rational seconds.
* The random generator (`rand::Rng`) is modelled as an infinite stream of
  standard-normal draws `stream : ℕ → ℚ` together with a cursor `idx : ℕ`;
  `rand_distr::Normal` sampling is `mean + std_dev * stream idx`, advancing
  the cursor, exactly the affine transform the Rust crate applies.
* The platform exponential `f64::exp` is an injected oracle `e : ℚ → ℚ`;
  theorems that depend on analytic facts about exp take them as explicit
  hypotheses on the oracle (e.g. `e x ≤ 1` for `x ≤ 0`).
* Fallible Rust paths (`.unwrap()` on `Normal::new`) are modelled with
  `Option`: `none` is a panic.
-/

namespace Nyx

/-- Model of rand_distr::Normal: carries mean and standard deviation. -/
structure Normal where
  mean : ℚ
  std_dev : ℚ
deriving DecidableEq

/-- Model of rand_distr::Normal::new: fails (Err) exactly when the standard
deviation is negative, as in the rand_distr crate. -/
def Normal.new (mean std_dev : ℚ) : Option Normal :=
  if std_dev < 0 then none else some { mean := mean, std_dev := std_dev }

/-- Model of sampling a normal distribution through the injected RNG:
the draw is mean + std_dev * z where z is the next standard-normal value of
the stream; the cursor advances by one. -/
def Normal.draw (d : Normal) (stream : ℕ → ℚ) (idx : ℕ) : ℚ × ℕ :=
  (d.mean + d.std_dev * stream idx, idx + 1)

/-- Model of the error type io::ConfigError (only the variant the noise
module uses). The Rust message interpolates the offending tau; the message
text is irrelevant to every claim. -/
inductive ConfigError
| invalidConfig (msg : String)
deriving DecidableEq

/-- Embedding of src/od/noise/gauss_markov.rs struct GaussMarkov.
tau is the Duration field in seconds; prev_epoch and init_sample are the two
serde-skipped Option fields. -/
structure GaussMarkov where
  tau : ℚ
  process_noise : ℚ
  prev_epoch : Option ℚ
  init_sample : Option ℚ
deriving DecidableEq

/-- hifitime Duration::MAX in seconds: one nanosecond less than 32768
centuries of 36525 days. -/
def durationMaxSeconds : ℚ := 32768 * 3155760000 - 1 / 1000000000

/-- Embedding of GaussMarkov::new. The Rust code rejects tau <= 0 and
performs no check at all on process_noise. -/
def GaussMarkov.new (tau process_noise : ℚ) : Except ConfigError GaussMarkov :=
  if tau ≤ 0 then
    Except.error (ConfigError.invalidConfig "tau must be positive")
  else
    Except.ok { tau := tau, process_noise := process_noise, prev_epoch := none, init_sample := none }

/-- Embedding of GaussMarkov::ZERO: Duration::MAX time constant, zero noise,
both stateful fields unset. -/
def GaussMarkov.ZERO : GaussMarkov :=
  { tau := durationMaxSeconds, process_noise := 0, prev_epoch := none, init_sample := none }

/-- Embedding of Stochastics::variance for GaussMarkov: the square of the
process noise, ignoring the epoch. -/
def GaussMarkov.variance (g : GaussMarkov) (_epoch : ℚ) : ℚ :=
  g.process_noise ^ 2

/-- The dt_s computation at the head of GaussMarkov::sample: seconds since
the previous realization, Duration::ZERO on the first call. -/
def GaussMarkov.dt_s (g : GaussMarkov) (epoch : ℚ) : ℚ :=
  match g.prev_epoch with
  | none => 0
  | some prev => epoch - prev

/-- Embedding of Stochastics::sample for GaussMarkov (gauss_markov.rs lines
132-157). `e` is the injected f64::exp oracle, `stream`/`idx` the injected
RNG. Returns none when either internal Normal::new(...).unwrap() would
panic. On success returns (bias, updated process, advanced cursor); the
updated process records prev_epoch = Some(epoch) and keeps init_sample at
the first-ever draw, exactly as the Rust code does (it never writes the
returned bias back). -/
def GaussMarkov.sample (e : ℚ → ℚ) (stream : ℕ → ℚ) (g : GaussMarkov)
    (epoch : ℚ) (idx : ℕ) : Option (ℚ × GaussMarkov × ℕ) :=
  let dt_s := g.dt_s epoch
  -- self.prev_epoch = Some(epoch); then the init draw if init_sample is none
  let initStep : Option (ℚ × ℕ) :=
    match g.init_sample with
    | some b => some (b, idx)
    | none =>
      match Normal.new 0 g.process_noise with
      | none => none
      | some d => some (d.draw stream idx)
  match initStep with
  | none => none
  | some (b0, i1) =>
    let decay := e (-dt_s / g.tau)
    let anti_decay := 1 - decay
    let steady_noise := 0.5 * g.process_noise * g.tau * anti_decay
    match Normal.new 0 steady_noise with
    | none => none
    | some d =>
      let (w, i2) := d.draw stream i1
      let bias := b0 * decay + w
      some (bias, { tau := g.tau, process_noise := g.process_noise,
                    prev_epoch := some epoch, init_sample := some b0 }, i2)

/-- Embedding of impl Mul<f64> for GaussMarkov: scale the process noise,
keep tau, reset both stateful fields. -/
def GaussMarkov.mul (g : GaussMarkov) (rhs : ℚ) : GaussMarkov :=
  { tau := g.tau, process_noise := g.process_noise * rhs,
    prev_epoch := none, init_sample := none }

/-- The serialized form of GaussMarkov: serde skips prev_epoch and
init_sample, so only tau and process_noise are written. -/
structure GaussMarkovSerde where
  tau : ℚ
  process_noise : ℚ
deriving DecidableEq

/-- Embedding of serializing a GaussMarkov: the two serde(skip) fields are
dropped. -/
def GaussMarkov.serialize (g : GaussMarkov) : GaussMarkovSerde :=
  { tau := g.tau, process_noise := g.process_noise }

/-- Embedding of deserializing a GaussMarkov: the two serde(skip) fields
come back as their Default (None). -/
def GaussMarkovSerde.deserialize (s : GaussMarkovSerde) : GaussMarkov :=
  { tau := s.tau, process_noise := s.process_noise,
    prev_epoch := none, init_sample := none }

/-- Folding GaussMarkov::sample over a list of epochs, threading the process
state and the RNG cursor, as the repository's fogm and zero-noise tests do. -/
def GaussMarkov.sampleSeq (e : ℚ → ℚ) (stream : ℕ → ℚ) (g : GaussMarkov)
    (epochs : List ℚ) (idx : ℕ) : Option (List ℚ × GaussMarkov × ℕ) :=
  match epochs with
  | [] => some ([], g, idx)
  | t :: ts =>
    match g.sample e stream t idx with
    | none => none
    | some (b, g1, i1) =>
      match g1.sampleSeq e stream ts i1 with
      | none => none
      | some (bs, g2, i2) => some (b :: bs, g2, i2)

/-- The bias used by GaussMarkov::sample: the stored init_sample when set,
otherwise the fresh draw from Normal(0, process_noise). -/
def GaussMarkov.initBias (g : GaussMarkov) (stream : ℕ → ℚ) (idx : ℕ) : ℚ :=
  match g.init_sample with
  | some b => b
  | none => 0 + g.process_noise * stream idx

/-- The RNG cursor after the optional initial draw of GaussMarkov::sample. -/
def GaussMarkov.initIdx (g : GaussMarkov) (idx : ℕ) : ℕ :=
  match g.init_sample with
  | some _ => idx
  | none => idx + 1

/-- Characterization of a successful GaussMarkov::sample call: when the
process noise is non-negative and the steady-state standard deviation is
non-negative, neither Normal::new fails and the call returns exactly
init * decay + w with the updated state. -/
theorem GaussMarkov.sample_eq (e : ℚ → ℚ) (stream : ℕ → ℚ) (g : GaussMarkov)
    (t : ℚ) (idx : ℕ)
    (hσ : 0 ≤ g.process_noise)
    (hss : 0 ≤ 0.5 * g.process_noise * g.tau * (1 - e (-g.dt_s t / g.tau))) :
    g.sample e stream t idx =
      some (g.initBias stream idx * e (-g.dt_s t / g.tau)
              + (0 + 0.5 * g.process_noise * g.tau * (1 - e (-g.dt_s t / g.tau))
                    * stream (g.initIdx idx)),
            { tau := g.tau, process_noise := g.process_noise,
              prev_epoch := some t, init_sample := some (g.initBias stream idx) },
            g.initIdx idx + 1) := by
  cases hinit : g.init_sample with
  | some b =>
    simp only [GaussMarkov.sample, GaussMarkov.initBias, GaussMarkov.initIdx,
      Normal.new, Normal.draw, hinit, if_neg (not_lt.mpr hss)]
  | none =>
    simp only [GaussMarkov.sample, GaussMarkov.initBias, GaussMarkov.initIdx,
      Normal.new, Normal.draw, hinit, if_neg (not_lt.mpr hσ),
      if_neg (not_lt.mpr hss)]

/-- C9: scaling a Gauss-Markov process by a scalar c multiplies the process
noise by c, keeps the time constant tau, and resets prev_epoch and
init_sample to unset, whatever state the process was in. -/
theorem gaussMarkov_mul_scales_and_resets (g : GaussMarkov) (c : ℚ) :
    (g.mul c).process_noise = c * g.process_noise ∧ (g.mul c).tau = g.tau ∧
    (g.mul c).prev_epoch = none ∧ (g.mul c).init_sample = none := by
  refine ⟨?_, rfl, rfl, rfl⟩
  simp [GaussMarkov.mul, mul_comm]

/-- C4 counterexample: GaussMarkov::new accepts a negative process noise.
At tau = 1, process_noise = -1 the constructor returns Ok, not the
InvalidConfig error the claim requires for negative covariance. -/
theorem gaussMarkov_new_negative_noise_cex :
    GaussMarkov.new 1 (-1) =
      Except.ok { tau := 1, process_noise := -1, prev_epoch := none, init_sample := none } ∧
    ∀ msg, GaussMarkov.new 1 (-1) ≠ Except.error (ConfigError.invalidConfig msg) := by
  constructor
  · norm_num [GaussMarkov.new]
  · intro msg h
    norm_num [GaussMarkov.new] at h
    exact Except.noConfusion h

/-- C4 amended: GaussMarkov::new rejects tau <= 0 with InvalidConfig and,
for every tau > 0, returns Ok with the given tau and process noise (negative
process noise included, it is not checked) and both stateful fields unset. -/
theorem gaussMarkov_new_spec (tau process_noise : ℚ) :
    (tau ≤ 0 → GaussMarkov.new tau process_noise =
      Except.error (ConfigError.invalidConfig "tau must be positive")) ∧
    (0 < tau → GaussMarkov.new tau process_noise =
      Except.ok { tau := tau, process_noise := process_noise,
                  prev_epoch := none, init_sample := none }) := by
  constructor
  · intro h; simp [GaussMarkov.new, h]
  · intro h; simp [GaussMarkov.new, not_le.mpr h]

/-- Witness for C4 amended: both branches at concrete inputs. -/
theorem gaussMarkov_new_spec_witness :
    ((-1 : ℚ) ≤ 0 ∧ GaussMarkov.new (-1) 5 =
      Except.error (ConfigError.invalidConfig "tau must be positive")) ∧
    ((0 : ℚ) < 1 ∧ GaussMarkov.new 1 (-2) =
      Except.ok { tau := 1, process_noise := -2, prev_epoch := none, init_sample := none }) :=
  ⟨⟨by norm_num, (gaussMarkov_new_spec (-1) 5).1 (by norm_num)⟩,
   ⟨by norm_num, (gaussMarkov_new_spec 1 (-2)).2 (by norm_num)⟩⟩

/-- C6 counterexample: serde round-trip does not restore a sampled process.
A GaussMarkov with prev_epoch and init_sample set comes back with both
fields cleared (they are serde(skip)), so the result is not equal to the
original. -/
theorem gaussMarkov_serde_roundtrip_cex :
    GaussMarkovSerde.deserialize
      (GaussMarkov.serialize
        { tau := 1, process_noise := 1, prev_epoch := some 0, init_sample := some 1 }) ≠
      { tau := 1, process_noise := 1, prev_epoch := some 0, init_sample := some 1 } := by
  simp [GaussMarkovSerde.deserialize, GaussMarkov.serialize]

/-- C6 amended: serde round-trip of a GaussMarkov preserves tau and
process_noise and clears the serde-skipped prev_epoch and init_sample; the
round-trip equals the original exactly when both stateful fields were
already unset. -/
theorem gaussMarkov_serde_roundtrip (g : GaussMarkov) :
    GaussMarkovSerde.deserialize (GaussMarkov.serialize g) =
      { tau := g.tau, process_noise := g.process_noise,
        prev_epoch := none, init_sample := none } ∧
    (GaussMarkovSerde.deserialize (GaussMarkov.serialize g) = g ↔
      g.prev_epoch = none ∧ g.init_sample = none) := by
  cases g with
  | mk tau pn pe ins =>
    refine ⟨rfl, ?_⟩
    simp [GaussMarkovSerde.deserialize, GaussMarkov.serialize,
      GaussMarkov.mk.injEq, eq_comm]

/-- Witness for C6 amended: an unsampled process round-trips to itself. -/
theorem gaussMarkov_serde_roundtrip_witness :
    GaussMarkovSerde.deserialize
        (GaussMarkov.serialize
          { tau := 1, process_noise := 2, prev_epoch := none, init_sample := none }) =
      { tau := 1, process_noise := 2, prev_epoch := none, init_sample := none } :=
  (gaussMarkov_serde_roundtrip _).2.mpr ⟨rfl, rfl⟩

/-- The f64 double nearest exp(-1), as an exact decimal. It stands in for
the platform exponential at the one point the C3 counterexample evaluates
it; the refutation only uses that it differs from 1, as the genuine
exp(-1) does. -/
def expNegOneF64 : ℚ := 36787944117144233 / 100000000000000000

/-- Non-negativity of the steady-state standard deviation computed inside
GaussMarkov::sample, given non-negative noise, positive tau, a non-rewound
epoch and the exp bound e x ≤ 1 for x ≤ 0. -/
theorem GaussMarkov.steady_nonneg (e : ℚ → ℚ) (g : GaussMarkov) (t : ℚ)
    (hσ : 0 ≤ g.process_noise) (htau : 0 < g.tau)
    (hprev : ∀ p ∈ g.prev_epoch, p ≤ t)
    (hexp : ∀ x : ℚ, x ≤ 0 → e x ≤ 1) :
    0 ≤ 0.5 * g.process_noise * g.tau * (1 - e (-g.dt_s t / g.tau)) := by
  have hdt : 0 ≤ g.dt_s t := by
    cases hpe : g.prev_epoch with
    | none => simp [GaussMarkov.dt_s, hpe]
    | some p =>
      have hp := hprev p (by simp [hpe])
      simp only [GaussMarkov.dt_s, hpe]
      linarith
  have harg : -g.dt_s t / g.tau ≤ 0 := by
    rw [neg_div]
    exact neg_nonpos.mpr (div_nonneg hdt htau.le)
  have h1 : 0 ≤ 1 - e (-g.dt_s t / g.tau) := by
    have := hexp _ harg
    linarith
  have h2 : (0 : ℚ) ≤ 0.5 * g.process_noise * g.tau :=
    mul_nonneg (mul_nonneg (by norm_num) hσ) htau.le
  exact mul_nonneg h2 h1

/-- C2: for a Gauss-Markov process with tau > 0 (and sigma ≥ 0, a
non-rewound epoch, and the exp bound — the conditions under which the call
returns), sample(t, rng) returns b_prev * decay + w, where dt is t minus the
stored previous epoch (0 on the first call), decay = exp(-dt/tau), b_prev is
the stored bias (drawn as 0 + sigma * z from the injected RNG when unset),
and w = 0 + sigma_ss * z with sigma_ss = 0.5 * sigma * tau * (1 - decay). -/
theorem gaussMarkov_sample_formula (e : ℚ → ℚ) (stream : ℕ → ℚ)
    (g : GaussMarkov) (t : ℚ) (idx : ℕ)
    (htau : 0 < g.tau) (hσ : 0 ≤ g.process_noise)
    (hprev : ∀ p ∈ g.prev_epoch, p ≤ t)
    (hexp : ∀ x : ℚ, x ≤ 0 → e x ≤ 1) :
    g.sample e stream t idx =
      some (g.initBias stream idx * e (-g.dt_s t / g.tau)
              + (0 + 0.5 * g.process_noise * g.tau * (1 - e (-g.dt_s t / g.tau))
                    * stream (g.initIdx idx)),
            { tau := g.tau, process_noise := g.process_noise,
              prev_epoch := some t, init_sample := some (g.initBias stream idx) },
            g.initIdx idx + 1) :=
  GaussMarkov.sample_eq e stream g t idx hσ
    (GaussMarkov.steady_nonneg e g t hσ htau hprev hexp)

/-- Witness for C2: a concrete first call with unit tau and noise. -/
theorem gaussMarkov_sample_formula_witness :
    (0 : ℚ) < 1 ∧ (0 : ℚ) ≤ 1 ∧
    GaussMarkov.sample (fun _ => 1) (fun _ => 0)
        { tau := 1, process_noise := 1, prev_epoch := none, init_sample := none } 5 0 =
      some (0, { tau := 1, process_noise := 1, prev_epoch := some 5, init_sample := some 0 }, 2) :=
  ⟨by norm_num, by norm_num, by
    have h := gaussMarkov_sample_formula (fun _ => 1) (fun _ => 0)
      { tau := 1, process_noise := 1, prev_epoch := none, init_sample := none } 5 0
      (by norm_num) (by norm_num) (by simp) (fun x _ => le_rfl)
    simpa [GaussMarkov.initBias, GaussMarkov.initIdx, GaussMarkov.dt_s] using h⟩

/-- Inversion of a successful GaussMarkov::sample call: the resulting state
records the sample epoch and keeps the initial bias, never the returned
bias. -/
theorem GaussMarkov.sample_inv (e : ℚ → ℚ) (stream : ℕ → ℚ)
    (g : GaussMarkov) (t : ℚ) (idx : ℕ) (b : ℚ) (g' : GaussMarkov) (idx' : ℕ)
    (h : g.sample e stream t idx = some (b, g', idx')) :
    g' = { tau := g.tau, process_noise := g.process_noise,
           prev_epoch := some t, init_sample := some (g.initBias stream idx) } := by
  cases hinit : g.init_sample with
  | some b0 =>
    simp only [GaussMarkov.sample, hinit, Normal.new, Normal.draw,
      GaussMarkov.initBias] at h ⊢
    by_cases h2 : 0.5 * g.process_noise * g.tau * (1 - e (-g.dt_s t / g.tau)) < 0
    · rw [if_pos h2] at h
      exact Option.noConfusion h
    · rw [if_neg h2] at h
      simp only [Option.some.injEq, Prod.mk.injEq] at h
      exact h.2.1.symm
  | none =>
    simp only [GaussMarkov.sample, hinit, Normal.new, Normal.draw,
      GaussMarkov.initBias] at h ⊢
    by_cases h1 : g.process_noise < 0
    · rw [if_pos h1] at h
      exact Option.noConfusion h
    · rw [if_neg h1] at h
      by_cases h2 : 0.5 * g.process_noise * g.tau * (1 - e (-g.dt_s t / g.tau)) < 0
      · rw [if_pos h2] at h
        exact Option.noConfusion h
      · rw [if_neg h2] at h
        simp only [Option.some.injEq, Prod.mk.injEq] at h
        exact h.2.1.symm

/-- C3 counterexample: a sampled process (init_sample = some 1, prev_epoch
= some 0) sampled again at t = 1 returns bias exp(-1) (the oracle holds the
f64 double nearest exp(-1)), yet the stored init_sample stays some 1, which
differs from the returned bias — refuting that the stored previous bias
equals the value sample just returned. -/
theorem gaussMarkov_sample_keeps_init_cex :
    GaussMarkov.sample (fun _ => expNegOneF64) (fun _ => 0)
        { tau := 1, process_noise := 1, prev_epoch := some 0, init_sample := some 1 } 1 0 =
      some (expNegOneF64,
            { tau := 1, process_noise := 1, prev_epoch := some 1, init_sample := some 1 }, 1) ∧
    expNegOneF64 ≠ 1 := by
  constructor
  · norm_num [GaussMarkov.sample, GaussMarkov.dt_s, Normal.new, Normal.draw, expNegOneF64]
  · norm_num [expNegOneF64]

/-- C3 amended: after a successful sample(t) call, the stored prev_epoch is
some t and tau and process_noise are unchanged, while init_sample holds the
first-ever drawn bias — the prior init_sample when it was set, otherwise the
fresh initial draw — not the bias the call just returned. -/
theorem gaussMarkov_sample_state_update (e : ℚ → ℚ) (stream : ℕ → ℚ)
    (g : GaussMarkov) (t : ℚ) (idx : ℕ) (b : ℚ) (g' : GaussMarkov) (idx' : ℕ)
    (h : g.sample e stream t idx = some (b, g', idx')) :
    g'.prev_epoch = some t ∧ g'.tau = g.tau ∧ g'.process_noise = g.process_noise ∧
    g'.init_sample = some (g.initBias stream idx) := by
  have hg := GaussMarkov.sample_inv e stream g t idx b g' idx' h
  subst hg
  exact ⟨rfl, rfl, rfl, rfl⟩

/-- Witness for C3 amended: a concrete successful call and the resulting
prev_epoch. -/
theorem gaussMarkov_sample_state_update_witness :
    (GaussMarkov.sample (fun _ => 1) (fun _ => 0)
        { tau := 1, process_noise := 1, prev_epoch := none, init_sample := none } 0 0 =
      some (0, { tau := 1, process_noise := 1, prev_epoch := some 0, init_sample := some 0 }, 2)) ∧
    ({ tau := 1, process_noise := 1, prev_epoch := some 0, init_sample := some 0 }
      : GaussMarkov).prev_epoch = some 0 :=
  have h : GaussMarkov.sample (fun _ => 1) (fun _ => 0)
      { tau := 1, process_noise := 1, prev_epoch := none, init_sample := none } 0 0 =
      some (0, { tau := 1, process_noise := 1, prev_epoch := some 0, init_sample := some 0 }, 2) := by
    norm_num [GaussMarkov.sample, GaussMarkov.dt_s, Normal.new, Normal.draw]
  ⟨h, (gaussMarkov_sample_state_update (fun _ => 1) (fun _ => 0) _ 0 0 0 _ 2 h).1⟩

/-- C10: GaussMarkov::sample returns normally (no internal unwrap panic)
whenever process_noise ≥ 0, tau > 0 and the epoch is not earlier than the
stored previous epoch: both internally constructed normal distributions then
have non-negative standard deviation. The hypothesis on the oracle e is the
analytic fact exp x ≤ 1 for x ≤ 0, true of the platform exponential. -/
theorem gaussMarkov_sample_no_panic (e : ℚ → ℚ) (stream : ℕ → ℚ)
    (g : GaussMarkov) (t : ℚ) (idx : ℕ)
    (hσ : 0 ≤ g.process_noise) (htau : 0 < g.tau)
    (hprev : ∀ p ∈ g.prev_epoch, p ≤ t)
    (hexp : ∀ x : ℚ, x ≤ 0 → e x ≤ 1) :
    ∃ b g' idx', g.sample e stream t idx = some (b, g', idx') :=
  ⟨_, _, _, GaussMarkov.sample_eq e stream g t idx hσ
    (GaussMarkov.steady_nonneg e g t hσ htau hprev hexp)⟩

/-- Witness for C10: the hypotheses and the conclusion at a concrete call. -/
theorem gaussMarkov_sample_no_panic_witness :
    (0 : ℚ) ≤ 1 ∧ (0 : ℚ) < 1 ∧
    (∃ b g' idx', GaussMarkov.sample (fun _ => 1) (fun _ => 0)
        { tau := 1, process_noise := 1, prev_epoch := some 1, init_sample := none } 3 0 =
      some (b, g', idx')) :=
  ⟨by norm_num, by norm_num,
    gaussMarkov_sample_no_panic (fun _ => 1) (fun _ => 0)
      { tau := 1, process_noise := 1, prev_epoch := some 1, init_sample := none } 3 0
      (by norm_num) (by norm_num) (by intro p hp; simp at hp; rw [← hp]; norm_num)
      (fun x _ => le_rfl)⟩

/-- A zero-noise Gauss-Markov step: when process_noise = 0 and the stored
bias is unset or zero, sample succeeds and returns exactly 0, preserving the
zero invariant. -/
theorem GaussMarkov.sample_zero (e : ℚ → ℚ) (stream : ℕ → ℚ)
    (g : GaussMarkov) (t : ℚ) (idx : ℕ)
    (hσ : g.process_noise = 0)
    (hinit : g.init_sample = none ∨ g.init_sample = some 0) :
    g.sample e stream t idx =
      some (0, { tau := g.tau, process_noise := 0, prev_epoch := some t,
                 init_sample := some 0 }, g.initIdx idx + 1) := by
  have h := GaussMarkov.sample_eq e stream g t idx (by simp [hσ]) (by simp [hσ])
  rw [h]
  rcases hinit with h0 | h0
  · simp [GaussMarkov.initBias, h0, hσ]
  · simp [GaussMarkov.initBias, h0, hσ]

/-- Sampling a zero-invariant Gauss-Markov process over any epoch list
yields a list of exact zeros. -/
theorem GaussMarkov.sampleSeq_zero (e : ℚ → ℚ) (stream : ℕ → ℚ)
    (epochs : List ℚ) : ∀ (g : GaussMarkov) (idx : ℕ),
    g.process_noise = 0 → (g.init_sample = none ∨ g.init_sample = some 0) →
    ∃ g' idx', g.sampleSeq e stream epochs idx =
      some (List.replicate epochs.length 0, g', idx') := by
  induction epochs with
  | nil => exact fun g idx _ _ => ⟨g, idx, rfl⟩
  | cons t ts ih =>
    intro g idx hσ hinit
    have hstep := GaussMarkov.sample_zero e stream g t idx hσ hinit
    obtain ⟨g', idx', hseq⟩ := ih
      { tau := g.tau, process_noise := 0, prev_epoch := some t, init_sample := some 0 }
      (g.initIdx idx + 1) rfl (Or.inr rfl)
    exact ⟨g', idx', by simp [GaussMarkov.sampleSeq, hstep, hseq, List.replicate_succ]⟩

/-- C8: every call to sample on GaussMarkov::ZERO returns exactly 0, for
every epoch sequence and every injected RNG — so the mean, minimum and
maximum over any number of samples (in particular 1000) are all exactly 0 —
and variance reports sigma squared, i.e. 0. -/
theorem gaussMarkov_zero_always_zero (e : ℚ → ℚ) (stream : ℕ → ℚ)
    (epochs : List ℚ) (idx : ℕ) (t : ℚ) :
    (∃ g' idx', GaussMarkov.ZERO.sampleSeq e stream epochs idx =
      some (List.replicate epochs.length 0, g', idx')) ∧
    GaussMarkov.ZERO.variance t = 0 := by
  refine ⟨GaussMarkov.sampleSeq_zero e stream epochs GaussMarkov.ZERO idx rfl (Or.inl rfl), ?_⟩
  simp [GaussMarkov.variance, GaussMarkov.ZERO]

/-- Modelled from the spec: the filter error taxonomy (section 7) of the
Kalman filter, whose Rust source (od/kalman.rs) is not part of this
repository snapshot; only its test (tests/stat_od/two_body.rs
filter_errors) is. -/
inductive FilterError
| stateTransitionMatrixNotUpdated
| sensitivityNotUpdated
| gainSingular
deriving DecidableEq

/-- Modelled from the spec: the Kalman filter state (x̂, P, Φ, H, R) of
section 4.H with the freshness flags for Φ and H and the CKF/EKF mode
switch; the filter source is not in this snapshot. The SNC term Γ Q Γᵀ and
its window are omitted: no claim touches them. -/
structure KF (n k : ℕ) where
  x_hat : Fin n → ℚ
  covar : Matrix (Fin n) (Fin n) ℚ
  stm : Matrix (Fin n) (Fin n) ℚ
  h_tilde : Matrix (Fin k) (Fin n) ℚ
  measurement_noise : Matrix (Fin k) (Fin k) ℚ
  stm_updated : Bool
  h_tilde_updated : Bool
  ekf : Bool

/-- Modelled from the spec: update_stm(Φ), provided by the propagator at
each step; marks the STM fresh. -/
def KF.update_stm {n k : ℕ} (kf : KF n k) (stm : Matrix (Fin n) (Fin n) ℚ) : KF n k :=
  { kf with stm := stm, stm_updated := true }

/-- Modelled from the spec: update_h_tilde(H), provided by the measurement
model; marks the sensitivity fresh. -/
def KF.update_h_tilde {n k : ℕ} (kf : KF n k) (h : Matrix (Fin k) (Fin n) ℚ) : KF n k :=
  { kf with h_tilde := h, h_tilde_updated := true }

/-- Modelled from the spec: time_update — requires a fresh Φ since the
previous call, else StateTransitionMatrixNotUpdated; computes P⁻ = Φ P Φᵀ
(SNC omitted), propagates the CKF deviation by Φ, and resets Φ to identity
after success. -/
def KF.time_update {n k : ℕ} (kf : KF n k) : Except FilterError (KF n k) :=
  if kf.stm_updated = false then
    Except.error FilterError.stateTransitionMatrixNotUpdated
  else
    Except.ok { kf with
      x_hat := if kf.ekf then kf.x_hat else kf.stm.mulVec kf.x_hat,
      covar := kf.stm * kf.covar * kf.stm.transpose,
      stm := 1, stm_updated := false }

/-- Modelled from the spec: the innovation covariance S = H P Hᵀ + R. -/
def KF.innovation_covar {n k : ℕ} (kf : KF n k) : Matrix (Fin k) (Fin k) ℚ :=
  kf.h_tilde * kf.covar * kf.h_tilde.transpose + kf.measurement_noise

/-- Modelled from the spec: measurement_update — requires fresh Φ and H
(StateTransitionMatrixNotUpdated / SensitivityNotUpdated otherwise), fails
with GainSingular when S = H P Hᵀ + R is not invertible, else performs the
Joseph-form update with gain K = P Hᵀ S⁻¹ and resets the freshness flags.
Over ℚ, Cholesky failure on symmetric S is modelled as det S = 0
(non-invertibility, as the spec words it). -/
def KF.measurement_update {n k : ℕ} (kf : KF n k)
    (real_obs computed_obs : Fin k → ℚ) : Except FilterError (KF n k) :=
  if kf.stm_updated = false then
    Except.error FilterError.stateTransitionMatrixNotUpdated
  else if kf.h_tilde_updated = false then
    Except.error FilterError.sensitivityNotUpdated
  else
    let s := kf.innovation_covar
    if s.det = 0 then
      Except.error FilterError.gainSingular
    else
      let s_inv := s.det⁻¹ • s.adjugate
      let gain := kf.covar * kf.h_tilde.transpose * s_inv
      let prefit := real_obs - computed_obs
      let i_kh := (1 : Matrix (Fin n) (Fin n) ℚ) - gain * kf.h_tilde
      Except.ok { kf with
        x_hat := if kf.ekf then kf.x_hat + gain.mulVec prefit
                 else kf.x_hat + gain.mulVec (prefit - kf.h_tilde.mulVec kf.x_hat),
        covar := i_kh * kf.covar * i_kh.transpose
                   + gain * kf.measurement_noise * gain.transpose,
        stm := 1, stm_updated := false, h_tilde_updated := false }

/-- Modelled from the spec: the propagation policy — a failed filter call
leaves the filter state untouched; the caller keeps the old state and the
error is surfaced alongside it. -/
def KF.run {n k : ℕ} (kf : KF n k)
    (op : KF n k → Except FilterError (KF n k)) : KF n k × Option FilterError :=
  match op kf with
  | Except.ok kf2 => (kf2, none)
  | Except.error err => (kf, some err)

/-- C5: time_update without a fresh STM fails with
StateTransitionMatrixNotUpdated; measurement_update fails with
StateTransitionMatrixNotUpdated on a stale STM, with SensitivityNotUpdated
on a fresh STM but stale H, and with GainSingular when both are fresh but
S = H P Hᵀ + R is not invertible; a failed update leaves the filter state
unchanged. -/
theorem kalman_filter_error_contract {n k : ℕ} (kf : KF n k)
    (real_obs computed_obs : Fin k → ℚ) :
    (kf.stm_updated = false →
      kf.time_update = Except.error FilterError.stateTransitionMatrixNotUpdated) ∧
    (kf.stm_updated = false →
      kf.measurement_update real_obs computed_obs =
        Except.error FilterError.stateTransitionMatrixNotUpdated) ∧
    (kf.stm_updated = true → kf.h_tilde_updated = false →
      kf.measurement_update real_obs computed_obs =
        Except.error FilterError.sensitivityNotUpdated) ∧
    (kf.stm_updated = true → kf.h_tilde_updated = true →
      kf.innovation_covar.det = 0 →
      kf.measurement_update real_obs computed_obs =
        Except.error FilterError.gainSingular) ∧
    (∀ op err, op kf = Except.error err → (kf.run op).1 = kf) := by
  refine ⟨?_, ?_, ?_, ?_, ?_⟩
  · intro h; simp [KF.time_update, h]
  · intro h; simp [KF.measurement_update, h]
  · intro h1 h2; simp [KF.measurement_update, h1, h2]
  · intro h1 h2 h3; simp [KF.measurement_update, h1, h2, h3]
  · intro op err h; simp [KF.run, h]

/-- The filter of the repository's filter_errors test: 6-state, 2-obs, all
zero matrices, nothing fresh. -/
def kfStale : KF 6 2 :=
  { x_hat := 0, covar := 0, stm := 0, h_tilde := 0, measurement_noise := 0,
    stm_updated := false, h_tilde_updated := false, ekf := false }

/-- Witness for C5: the exact scenario of the filter_errors test — stale
filter, then update_stm, then update_h_tilde with zero matrices (so S = 0
is singular). -/
theorem kalman_filter_error_contract_witness :
    kfStale.time_update = Except.error FilterError.stateTransitionMatrixNotUpdated ∧
    kfStale.measurement_update 0 0 =
      Except.error FilterError.stateTransitionMatrixNotUpdated ∧
    (kfStale.update_stm 0).measurement_update 0 0 =
      Except.error FilterError.sensitivityNotUpdated ∧
    ((kfStale.update_stm 0).update_h_tilde 0).measurement_update 0 0 =
      Except.error FilterError.gainSingular :=
  ⟨(kalman_filter_error_contract kfStale 0 0).1 rfl,
   (kalman_filter_error_contract kfStale 0 0).2.1 rfl,
   (kalman_filter_error_contract (kfStale.update_stm 0) 0 0).2.2.1 rfl rfl,
   (kalman_filter_error_contract ((kfStale.update_stm 0).update_h_tilde 0) 0 0).2.2.2.1
     rfl rfl
     (by simp [KF.innovation_covar, kfStale, KF.update_stm, KF.update_h_tilde])⟩

/-- Modelled from the spec: the adaptive propagator options (section 4.D) —
h_min, h_max, tolerance, safety factor and the shrink/grow clamps of the
step-control law; the RK8(9) integrator source is not in this repository
snapshot (only the tests/orbitaldyn.rs callers are). -/
structure PropOpts where
  min_step : ℚ
  max_step : ℚ
  tolerance : ℚ
  safety : ℚ
  shrink_min : ℚ
  grow_max : ℚ
deriving DecidableEq

/-- Modelled from the spec: the (step, error) pair returned by the
integrator's latest_details() observability hook. -/
structure IntgDetails where
  step : ℚ
  error : ℚ
deriving DecidableEq

/-- Modelled from the spec: the outcome of one accepted adaptive step — the
proposed next step size, the latest_details record, and whether the
"minimum step with excess error" diagnostic was recorded. -/
structure StepResult where
  next_h : ℚ
  details : IntgDetails
  min_step_flagged : Bool
deriving DecidableEq

/-- Modelled from the spec: the step-control factor
min(max(safety * (tol/err)^(1/p), shrink_min), grow_max). The fractional
power is the injected oracle pfac, standing for the f64 powf call. -/
def stepFactor (opts : PropOpts) (pfac : ℚ → ℚ) (err : ℚ) : ℚ :=
  min (max (opts.safety * pfac (opts.tolerance / err)) opts.shrink_min) opts.grow_max

/-- Modelled from the spec: clamping a candidate step into
[h_min, h_max]. -/
def clampStep (opts : PropOpts) (h : ℚ) : ℚ :=
  max opts.min_step (min opts.max_step h)

/-- Modelled from the spec: the adaptive RK8(9) step acceptance loop. errf
is the embedded-pair error estimate of a trial step of size h (a function of
the dynamics, abstracted); a trial is accepted when err ≤ tol, retried with
the clamped controlled step while h > h_min, and accepted at h = h_min with
the "minimum step with excess error" diagnostic recorded when the error
still exceeds the tolerance. The fuel bounds the number of retries; on
exhaustion the step is forced to h_min, matching the spec's invariant that a
step is never silently dropped. -/
def adaptiveStep (errf pfac : ℚ → ℚ) (opts : PropOpts) : ℕ → ℚ → StepResult
  | 0, _ =>
    let err := errf opts.min_step
    { next_h := opts.min_step,
      details := { step := opts.min_step, error := err },
      min_step_flagged := if opts.tolerance < err then true else false }
  | fuel + 1, h =>
    let err := errf h
    if err ≤ opts.tolerance then
      { next_h := clampStep opts (h * stepFactor opts pfac err),
        details := { step := h, error := err },
        min_step_flagged := false }
    else if h ≤ opts.min_step then
      { next_h := opts.min_step,
        details := { step := opts.min_step, error := err },
        min_step_flagged := true }
    else
      adaptiveStep errf pfac opts fuel (clampStep opts (h * stepFactor opts pfac err))

/-- C7: with 0 < h_min ≤ h_max and a current step inside [h_min, h_max],
every accepted step s satisfies h_min ≤ |s| ≤ h_max, and whenever
latest_details reports an error above the tolerance the reported step
equals h_min and the minimum-step diagnostic was recorded (the step was
accepted, never silently dropped). -/
theorem adaptive_step_bounds (errf pfac : ℚ → ℚ) (opts : PropOpts) (fuel : ℕ)
    (h : ℚ) (hmin : 0 < opts.min_step) (hminmax : opts.min_step ≤ opts.max_step)
    (hlo : opts.min_step ≤ h) (hhi : h ≤ opts.max_step) :
    (opts.min_step ≤ |(adaptiveStep errf pfac opts fuel h).details.step| ∧
      |(adaptiveStep errf pfac opts fuel h).details.step| ≤ opts.max_step) ∧
    (opts.tolerance < (adaptiveStep errf pfac opts fuel h).details.error →
      (adaptiveStep errf pfac opts fuel h).details.step = opts.min_step ∧
      (adaptiveStep errf pfac opts fuel h).min_step_flagged = true) := by
  induction fuel generalizing h with
  | zero =>
    simp only [adaptiveStep]
    refine ⟨⟨?_, ?_⟩, fun hterr => ⟨by simp, by simp [if_pos hterr]⟩⟩
    · rw [abs_of_pos hmin]
    · rw [abs_of_pos hmin]; exact hminmax
  | succ fuel ih =>
    simp only [adaptiveStep]
    by_cases hacc : errf h ≤ opts.tolerance
    · rw [if_pos hacc]
      refine ⟨⟨?_, ?_⟩, fun hterr => absurd hterr (not_lt.mpr hacc)⟩
      · rw [abs_of_pos (lt_of_lt_of_le hmin hlo)]; exact hlo
      · rw [abs_of_pos (lt_of_lt_of_le hmin hlo)]; exact hhi
    · rw [if_neg hacc]
      by_cases hm : h ≤ opts.min_step
      · rw [if_pos hm]
        refine ⟨⟨?_, ?_⟩, fun _ => ⟨by simp, by simp⟩⟩
        · rw [abs_of_pos hmin]
        · rw [abs_of_pos hmin]; exact hminmax
      · rw [if_neg hm]
        exact ih (clampStep opts (h * stepFactor opts pfac (errf h)))
          (le_max_left _ _) (max_le hminmax (min_le_left _ _))

/-- The adaptive options of the repository's two-body tests:
with_adaptive_step(0.1, 30.0, tol) plus the spec's safety 0.9 and
representative shrink/grow clamps. -/
def testOpts : PropOpts :=
  { min_step := 1/10, max_step := 30, tolerance := 1/100,
    safety := 9/10, shrink_min := 1/10, grow_max := 4 }

/-- Witness for C7: a run whose error estimate stays at 1 > tol; the
accepted step is the minimum step 0.1 and the diagnostic is recorded. -/
theorem adaptive_step_bounds_witness :
    ((0 : ℚ) < testOpts.min_step ∧ testOpts.min_step ≤ testOpts.max_step ∧
      testOpts.min_step ≤ (1 : ℚ) ∧ (1 : ℚ) ≤ testOpts.max_step) ∧
    (adaptiveStep (fun _ => 1) (fun _ => 1) testOpts 1 1).details.step = testOpts.min_step ∧
    (adaptiveStep (fun _ => 1) (fun _ => 1) testOpts 1 1).min_step_flagged = true := by
  have hres := (adaptive_step_bounds (fun _ => 1) (fun _ => 1) testOpts 1 1
    (by norm_num [testOpts]) (by norm_num [testOpts])
    (by norm_num [testOpts]) (by norm_num [testOpts])).2
    (by norm_num [adaptiveStep, testOpts])
  exact ⟨⟨by norm_num [testOpts], by norm_num [testOpts],
    by norm_num [testOpts], by norm_num [testOpts]⟩, hres.1, hres.2⟩

end Nyx
